import Mathlib

/-!
# PWM pulse period measurement (HCS12 / MC9S12DT256): model of `Source/Sources/main.c`

The target is a 16-bit machine: `int` is 16 bits wide, `long` 32 bits.
`UINT8`, `UINT16` and `UINT32` are the unsigned 8-, 16- and 32-bit types.
Machine integers are natural numbers; every assignment to a variable of a
fixed width reduces the assigned value modulo `2 ^ width`, and arithmetic that
the C code performs in a signed 32-bit `long` is carried out in `Int`.

The interrupt service routine runs to completion, so it is one atomic state
transformer on the shared variables. Writes to the timer flag register
`TFLG1` acknowledge the interrupt in the peripheral; they are not program
data and are not part of the state.

The control flow of `main` (lines 234-311) is a step function on program
points; what the surroundings supply (interrupts, reads of `TC1`, characters
from `GetChar`) is an input of each step.
-/

namespace PWM

/-- Conversion of an integer to `UINT16`. -/
def toU16 (x : Int) : Nat := (x % 65536).toNat

/-- Conversion of an integer to `UINT32`. -/
def toU32 (x : Int) : Nat := (x % 4294967296).toNat

/-- `#define PERIODLOLIM (UINT16) 950` -/
def PERIODLOLIM : Nat := 950

/-- `#define PERIODHILIM (UINT16) 1050` -/
def PERIODHILIM : Nat := 1050

/-- The file-scope variables of `main.c` (lines 43-46). `PulsTime` is the array
of `PERIODHILIM-PERIODLOLIM+1 = 101` counters. -/
structure State where
  edge_detected : Nat
  error_detected : Nat
  PulsTime : List Nat
  PulsCntr : Nat
  CurrTime : Nat
  PrevTime : Nat
  PulsPeriod : Nat
  deriving DecidableEq, Repr

/-- The interrupt service routine `OC1_isr` (lines 115-156); `TC1` is the value
of the capture register read at line 123. -/
def OC1_isr (TC1 : Nat) (s : State) : State :=
  let s := { s with CurrTime := TC1 % 65536 }
  let s := { s with edge_detected := 1 }
  let s :=
    if s.PulsCntr < 1000 ∧ s.PrevTime ≠ 0 then
      let s :=
        if s.CurrTime ≥ s.PrevTime then
          { s with PulsPeriod := toU32 (toU16 ((s.CurrTime : Int) - s.PrevTime)) }
        else
          { s with PulsPeriod := toU32 ((65535 + (s.CurrTime : Int)) - s.PrevTime) }
      if s.PulsPeriod ≥ PERIODLOLIM ∧ s.PulsPeriod ≤ PERIODHILIM then
        let idx := toU32 ((s.PulsPeriod : Int) - PERIODLOLIM)
        let s := { s with PulsTime := s.PulsTime.set idx ((s.PulsTime.getD idx 0 + 1) % 65536) }
        { s with PulsCntr := (s.PulsCntr + 1) % 65536 }
      else s
    else s
  { s with PrevTime := s.CurrTime }

/-- The clearing loop of `initPulseCapture` (lines 209-211), entered with the
given value of the `UINT16` variable `loop_counter`. -/
def clearLoop (loop_counter : Nat) (PulsTime : List Nat) : List Nat :=
  if loop_counter ≤ PERIODHILIM - PERIODLOLIM then
    clearLoop ((loop_counter + 1) % 65536) (PulsTime.set loop_counter 0)
  else PulsTime
termination_by 101 - loop_counter
decreasing_by simp only [PERIODHILIM, PERIODLOLIM] at *; omega

/-- The function `initPulseCapture` (lines 195-216). -/
def initPulseCapture (s : State) : State :=
  let s := { s with PrevTime := 0 }
  let s := { s with CurrTime := 0 }
  let s := { s with edge_detected := 0 }
  let s := { s with error_detected := 0 }
  let s := { s with PulsTime := clearLoop 0 s.PulsTime }
  { s with PulsCntr := 0 }

/-- A run of interrupts: `OC1_isr` invoked once for each captured tick, in order. -/
def runISR (ticks : List Nat) (s : State) : State :=
  ticks.foldl (fun st t => OC1_isr t st) s

/-- The states of an acquisition: a state left by `initPulseCapture` on the
101-element array, followed by any number of interrupts. -/
inductive Reachable : State → Prop
  | init (s0 : State) (h : s0.PulsTime.length = 101) : Reachable (initPulseCapture s0)
  | isr (t : Nat) (s : State) (h : Reachable s) : Reachable (OC1_isr t s)

/-- The busy wait of `main`, lines 263-268: the loop is left once `PulsCntr`
is no longer below 1000; `ticks` are the captures of the interrupts that fire
while it spins. The result is `none` when the edges stop with the wait unfinished. -/
def measureWait : List Nat → State → Option State
  | [], s => if s.PulsCntr < 1000 then none else some s
  | t :: ts, s => if s.PulsCntr < 1000 then measureWait ts (OC1_isr t s) else some s

/-- The report loop of `main` (lines 273-285), entered with the given value of
the `UINT8` variable `loop_counter`; `out` collects the argument pairs of the
`printf` calls of line 279. -/
def reportLoop (loop_counter : Nat) (s : State) (out : List (Nat × Nat)) :
    State × List (Nat × Nat) :=
  if loop_counter ≤ PERIODHILIM - PERIODLOLIM then
    if s.PulsTime.getD loop_counter 0 ≠ 0 then
      reportLoop ((loop_counter + 1) % 256)
        { s with PulsTime := s.PulsTime.set loop_counter 0 }
        (out ++ [((PERIODLOLIM + loop_counter) % 65536, s.PulsTime.getD loop_counter 0)])
    else
      reportLoop ((loop_counter + 1) % 256) s out
  else (s, out)
termination_by 101 - loop_counter
decreasing_by all_goals (simp only [PERIODHILIM, PERIODLOLIM] at *; omega)

/-- The report of `main`, lines 270-287. -/
def report (s : State) : State × List (Nat × Nat) :=
  if s.PulsCntr ≥ 1000 then reportLoop 0 s [] else (s, [])

/-- The loop condition of the self-test wait of `main`, line 243. The
subtraction of the first arm is done in `unsigned int`, that of the second arm
in `long`, as the constant `65536` is a `long`. -/
def waitCondition (start_time current_time : Nat) : Bool :=
  decide ((if current_time > start_time
    then (toU16 ((current_time : Int) - start_time) : Int)
    else ((current_time : Int) + 65536 - start_time)) < 5000)

/-- The self-test wait of `main`, lines 243-248, entered with `current_time`;
`polls` are the successive values read from `TC1` at line 246. The result is
the final `current_time` and the reads not consumed, or `none` when the reads
run out with the loop condition still true. -/
def selfTestWait (start_time : Nat) : Nat → List Nat → Option (Nat × List Nat)
  | current_time, [] =>
    if waitCondition start_time current_time then none else some (current_time, [])
  | current_time, t :: ts =>
    if waitCondition start_time current_time then selfTestWait start_time (t % 65536) ts
    else some (current_time, t :: ts)

/-- The texts `main` prints on the terminal; `pulsePeriod` is the line of 279
with its two arguments, `measureAgain` the prompt of line 289, `endOfProgram`
the text of line 311. -/
inductive Message
  | postSuccessful
  | pressAnyKey
  | postFailed
  | testAgain
  | pulsePeriod (period count : Nat)
  | measureAgain
  | endOfProgram
  deriving DecidableEq, Repr

/-- What `main` does after the self-test wait. -/
inductive PostOutcome
  | success (out : List Message) (post_error : Nat)
  | failure (out : List Message) (post_error : Nat) (user_input : Nat)
  deriving DecidableEq, Repr

/-- The branch of `main` on `edge_detected`, line 250: lines 253-257 on success
(the measurement loop follows), lines 299-305 on failure; `GetChar` is the
character the call of line 305 returns. -/
def postDiagnosis (s : State) (GetChar : Nat) : PostOutcome :=
  if s.edge_detected = 1 then
    PostOutcome.success [Message.postSuccessful, Message.pressAnyKey] 0
  else
    PostOutcome.failure [Message.postFailed, Message.testAgain] 1 (GetChar % 256)

/-- Capture ticks of `n` edges that are 1000 timer ticks apart, the first
captured at `start`, on the 16-bit free-running timer. -/
def edgeStream (start n : Nat) : List Nat :=
  (List.range n).map (fun k => (start + 1000 * k) % 65536)

/-- The program points of `main` between which the controller moves. -/
inductive Loc
  /-- Line 237: the call of `initPulseCapture` that opens the outer `do`. -/
  | outerInit
  /-- Lines 239-241: `start_time = TC1; current_time = start_time`. -/
  | selfTestStart
  /-- Lines 243-248: the self-test wait. -/
  | selfTestWaiting
  /-- Lines 250-257 and 296-305: the test of `edge_detected` with either branch
  up to the measurement loop (success) or up to the reading of a character (failure). -/
  | verdict
  /-- Line 261: the call of `initPulseCapture` that opens the inner `do`. -/
  | innerInit
  /-- Lines 263-268: the busy wait on `PulsCntr`. -/
  | measuring
  /-- Lines 270-291: the report, the prompt and the reading of a character. -/
  | reporting
  /-- Line 293: the condition of the inner `do ... while`. -/
  | innerCond
  /-- Line 309: the condition of the outer `do ... while`. -/
  | outerCond
  /-- Line 311: the last `printf`. -/
  | endNotice
  /-- The end of `main`. -/
  | returned
  deriving DecidableEq, Repr

/-- The controller: the program point, the locals of `main` (lines 224-226; the
loop counter lives in `reportLoop`), the globals, and the texts printed so far. -/
structure Ctrl where
  loc : Loc
  post_error : Nat
  user_input : Nat
  start_time : Nat
  current_time : Nat
  globals : State
  out : List Message
  deriving DecidableEq, Repr

/-- What the surroundings supply for one step of `main`: the captures of the
interrupts serviced before the step's statements run, the value a read of `TC1`
returns, and the character a call of `GetChar` returns. -/
structure Input where
  ticks : List Nat
  TC1 : Nat
  GetChar : Nat
  deriving DecidableEq, Repr

/-- One step of `main` (lines 234-311) from one program point to the next.
Interrupts are serviced between steps; after the measurement is complete they
change neither the histogram nor the count, so that the report is one step. -/
def step (i : Input) (c0 : Ctrl) : Ctrl :=
  let c := { c0 with globals := runISR i.ticks c0.globals }
  match c0.loc with
  | Loc.outerInit =>
    { c with globals := initPulseCapture c.globals, loc := Loc.selfTestStart }
  | Loc.selfTestStart =>
    { c with start_time := i.TC1 % 65536, current_time := i.TC1 % 65536,
             loc := Loc.selfTestWaiting }
  | Loc.selfTestWaiting =>
    if waitCondition c.start_time c.current_time then
      { c with current_time := i.TC1 % 65536 }
    else
      { c with loc := Loc.verdict }
  | Loc.verdict =>
    match postDiagnosis c.globals i.GetChar with
    | PostOutcome.success out post_error =>
      { c with out := c.out ++ out, post_error := post_error, loc := Loc.innerInit }
    | PostOutcome.failure out post_error user_input =>
      { c with out := c.out ++ out, post_error := post_error, user_input := user_input,
               loc := Loc.outerCond }
  | Loc.innerInit =>
    { c with globals := initPulseCapture c.globals, loc := Loc.measuring }
  | Loc.measuring =>
    if c.globals.PulsCntr < 1000 then c else { c with loc := Loc.reporting }
  | Loc.reporting =>
    { c with globals := (report c.globals).1,
             out := c.out ++ (report c.globals).2.map (fun p => Message.pulsePeriod p.1 p.2)
               ++ [Message.measureAgain],
             user_input := i.GetChar % 256,
             loc := Loc.innerCond }
  | Loc.innerCond =>
    if c.user_input = 89 ∨ c.user_input = 121 then { c with loc := Loc.innerInit }
    else { c with loc := Loc.outerCond }
  | Loc.outerCond =>
    if c.post_error = 1 ∧ (c.user_input = 89 ∨ c.user_input = 121) then
      { c with loc := Loc.outerInit }
    else { c with loc := Loc.endNotice }
  | Loc.endNotice =>
    { c with out := c.out ++ [Message.endOfProgram], loc := Loc.returned }
  | Loc.returned => c0

/-- A run of `main`: one step for each input, in order. -/
def run (inputs : List Input) (c : Ctrl) : Ctrl :=
  inputs.foldl (fun st i => step i st) c

/-- The program points inside the measurement loop, lines 259-293. -/
def Loc.inMeasurementLoop : Loc → Bool
  | Loc.innerInit => true
  | Loc.measuring => true
  | Loc.reporting => true
  | Loc.innerCond => true
  | _ => false

/-- The controller at line 237 on the first pass, with all counters zero; the
locals of `main`, not yet assigned there, hold `post_error = 1` and
`user_input = 89`. -/
def powerOn : Ctrl :=
  ⟨Loc.outerInit, 1, 89, 0, 0, ⟨0, 0, List.replicate 101 0, 0, 0, 0, 0⟩, []⟩

/-- Inputs that take `main` from line 237 to the report: the timer reads 40 at
the self-test, one edge (tick 5) arrives during it, and 1001 edges 1000 ticks
apart arrive during the measurement. -/
def session : List Input :=
  [⟨[], 0, 0⟩, ⟨[], 40, 0⟩, ⟨[5], 40, 0⟩, ⟨[], 0, 0⟩, ⟨[], 0, 0⟩, ⟨edgeStream 1 1001, 0, 0⟩]

end PWM

namespace PWM

/-! ## Auxiliary facts on the fixed-width conversions -/

theorem toU16_of_lt (x : Int) (h0 : 0 ≤ x) (h : x < 65536) : (toU16 x : Int) = x := by
  simp only [toU16]; omega

theorem toU32_of_lt (x : Int) (h0 : 0 ≤ x) (h : x < 4294967296) : (toU32 x : Int) = x := by
  simp only [toU32]; omega

theorem toU32_natCast_sub (a b : Nat) (hb : b ≤ a) (ha : a < 4294967296) :
    toU32 ((a : Int) - b) = a - b := by
  simp only [toU32]; omega

/-! ## The interrupt service routine, case by case -/

/-- The routine with its assignments flattened into one result per path. -/
theorem OC1_isr_unfold (t : Nat) (s : State) :
    OC1_isr t s =
      if s.PulsCntr < 1000 ∧ s.PrevTime ≠ 0 then
        if t % 65536 ≥ s.PrevTime then
          if toU32 (toU16 (((t % 65536 : Nat) : Int) - s.PrevTime)) ≥ 950 ∧
              toU32 (toU16 (((t % 65536 : Nat) : Int) - s.PrevTime)) ≤ 1050 then
            { edge_detected := 1, error_detected := s.error_detected,
              PulsTime := s.PulsTime.set
                (toU32 ((toU32 (toU16 (((t % 65536 : Nat) : Int) - s.PrevTime)) : Int) - (950 : Nat)))
                ((s.PulsTime.getD
                  (toU32 ((toU32 (toU16 (((t % 65536 : Nat) : Int) - s.PrevTime)) : Int) - (950 : Nat)))
                  0 + 1) % 65536),
              PulsCntr := (s.PulsCntr + 1) % 65536,
              CurrTime := t % 65536, PrevTime := t % 65536,
              PulsPeriod := toU32 (toU16 (((t % 65536 : Nat) : Int) - s.PrevTime)) }
          else
            { s with edge_detected := 1, CurrTime := t % 65536, PrevTime := t % 65536,
                     PulsPeriod := toU32 (toU16 (((t % 65536 : Nat) : Int) - s.PrevTime)) }
        else
          if toU32 ((65535 + ((t % 65536 : Nat) : Int)) - s.PrevTime) ≥ 950 ∧
              toU32 ((65535 + ((t % 65536 : Nat) : Int)) - s.PrevTime) ≤ 1050 then
            { edge_detected := 1, error_detected := s.error_detected,
              PulsTime := s.PulsTime.set
                (toU32 ((toU32 ((65535 + ((t % 65536 : Nat) : Int)) - s.PrevTime) : Int) - (950 : Nat)))
                ((s.PulsTime.getD
                  (toU32 ((toU32 ((65535 + ((t % 65536 : Nat) : Int)) - s.PrevTime) : Int) - (950 : Nat)))
                  0 + 1) % 65536),
              PulsCntr := (s.PulsCntr + 1) % 65536,
              CurrTime := t % 65536, PrevTime := t % 65536,
              PulsPeriod := toU32 ((65535 + ((t % 65536 : Nat) : Int)) - s.PrevTime) }
          else
            { s with edge_detected := 1, CurrTime := t % 65536, PrevTime := t % 65536,
                     PulsPeriod := toU32 ((65535 + ((t % 65536 : Nat) : Int)) - s.PrevTime) }
      else
        { s with edge_detected := 1, CurrTime := t % 65536, PrevTime := t % 65536 } := by
  simp only [OC1_isr, PERIODLOLIM, PERIODHILIM]
  split_ifs <;> rfl

theorem OC1_isr_CurrTime (t : Nat) (s : State) : (OC1_isr t s).CurrTime = t % 65536 := by
  rw [OC1_isr_unfold]; split_ifs <;> rfl

theorem OC1_isr_PrevTime (t : Nat) (s : State) : (OC1_isr t s).PrevTime = t % 65536 := by
  rw [OC1_isr_unfold]; split_ifs <;> rfl

theorem OC1_isr_edge_detected (t : Nat) (s : State) : (OC1_isr t s).edge_detected = 1 := by
  rw [OC1_isr_unfold]; split_ifs <;> rfl

theorem OC1_isr_error_detected (t : Nat) (s : State) :
    (OC1_isr t s).error_detected = s.error_detected := by
  rw [OC1_isr_unfold]; split_ifs <;> rfl

/-- When the guard of line 127 fails, the routine only latches the tick. -/
theorem OC1_isr_skip (t : Nat) (s : State) (h : ¬ (s.PulsCntr < 1000 ∧ s.PrevTime ≠ 0)) :
    OC1_isr t s =
      { s with CurrTime := t % 65536, edge_detected := 1, PrevTime := t % 65536 } := by
  rw [OC1_isr_unfold, if_neg h]

/-- The period assigned at lines 129-139 when the guard of line 127 holds. -/
theorem OC1_isr_PulsPeriod (t : Nat) (s : State) (h : s.PulsCntr < 1000 ∧ s.PrevTime ≠ 0) :
    (OC1_isr t s).PulsPeriod =
      if t % 65536 ≥ s.PrevTime then toU32 (toU16 (((t % 65536 : Nat) : Int) - s.PrevTime))
      else toU32 ((65535 + ((t % 65536 : Nat) : Int)) - s.PrevTime) := by
  rw [OC1_isr_unfold, if_pos h]; split_ifs <;> rfl

/-- A period outside the band, or no period at all, leaves histogram and count alone. -/
theorem OC1_isr_discard (t : Nat) (s : State)
    (h : ¬ (s.PulsCntr < 1000 ∧ s.PrevTime ≠ 0) ∨
      ¬ ((OC1_isr t s).PulsPeriod ≥ 950 ∧ (OC1_isr t s).PulsPeriod ≤ 1050)) :
    (OC1_isr t s).PulsTime = s.PulsTime ∧ (OC1_isr t s).PulsCntr = s.PulsCntr := by
  rcases h with h | h
  · rw [OC1_isr_skip t s h]; exact ⟨rfl, rfl⟩
  · revert h
    rw [OC1_isr_unfold]
    split_ifs with h1 h2 h3 h4
    · intro h; exact absurd h3 h
    · intro _; exact ⟨rfl, rfl⟩
    · intro h; exact absurd h4 h
    · intro _; exact ⟨rfl, rfl⟩
    · intro _; exact ⟨rfl, rfl⟩

/-- An accepted period updates one bucket and the count. -/
theorem OC1_isr_accept (t : Nat) (s : State) (hg : s.PulsCntr < 1000 ∧ s.PrevTime ≠ 0)
    (hb : (OC1_isr t s).PulsPeriod ≥ 950 ∧ (OC1_isr t s).PulsPeriod ≤ 1050) :
    (OC1_isr t s).PulsTime =
        s.PulsTime.set ((OC1_isr t s).PulsPeriod - 950)
          ((s.PulsTime.getD ((OC1_isr t s).PulsPeriod - 950) 0 + 1) % 65536) ∧
      (OC1_isr t s).PulsCntr = s.PulsCntr + 1 := by
  have hidx : ∀ p : Nat, 950 ≤ p → p ≤ 1050 → toU32 ((p : Int) - (950 : Nat)) = p - 950 := by
    intro p h1 h2
    simp only [toU32]; omega
  have hc : (s.PulsCntr + 1) % 65536 = s.PulsCntr + 1 := by omega
  revert hb
  rw [OC1_isr_unfold, if_pos hg]
  split_ifs with h2 h3 h4
  · intro _; rw [hidx _ h3.1 h3.2, hc]; exact ⟨rfl, rfl⟩
  · intro h; exact absurd h h3
  · intro _; rw [hidx _ h4.1 h4.2, hc]; exact ⟨rfl, rfl⟩
  · intro h; exact absurd h h4

/-! ## The clearing loop of `initPulseCapture` -/

/-- The clearing loop zeroes the entries from `loop_counter` to 100 and keeps the rest. -/
theorem clearLoop_getElem? (i : Nat) (pt : List Nat) (j : Nat) :
    (clearLoop i pt)[j]? =
      if i ≤ j ∧ j ≤ 100 ∧ j < pt.length then some 0 else pt[j]? := by
  induction i, pt using clearLoop.induct with
  | case1 i pt h ih =>
    rw [clearLoop, if_pos h, ih]
    simp only [PERIODHILIM, PERIODLOLIM] at h
    have hi : (i + 1) % 65536 = i + 1 := by omega
    rw [hi, List.length_set, List.getElem?_set]
    by_cases hij : i = j
    · subst hij
      by_cases hl : i < pt.length
      · simp [hl, h]
      · have : pt[i]? = none := List.getElem?_eq_none (by omega)
        simp [hl, this]
    · by_cases hlt : i + 1 ≤ j
      · have : i ≤ j := by omega
        simp [hij, hlt, this]
      · have : ¬ i ≤ j := by omega
        simp [hij, hlt, this]
  | case2 i pt h =>
    rw [clearLoop, if_neg h]
    simp only [PERIODHILIM, PERIODLOLIM] at h
    have : ¬ (i ≤ j ∧ j ≤ 100 ∧ j < pt.length) := by omega
    rw [if_neg this]

/-- On an array of 101 counters the clearing loop leaves 101 zeroes. -/
theorem clearLoop_zero (pt : List Nat) (h : pt.length = 101) :
    clearLoop 0 pt = List.replicate 101 0 := by
  apply List.ext_getElem?
  intro j
  rw [clearLoop_getElem?, List.getElem?_replicate, h]
  by_cases hj : j < 101
  · have : 0 ≤ j ∧ j ≤ 100 ∧ j < 101 := by omega
    rw [if_pos this, if_pos hj]
  · have : ¬ (0 ≤ j ∧ j ≤ 100 ∧ j < 101) := by omega
    rw [if_neg this, if_neg hj]
    exact List.getElem?_eq_none (by omega)

/-- The state `initPulseCapture` leaves, written out. -/
theorem initPulseCapture_eq (s : State) (h : s.PulsTime.length = 101) :
    initPulseCapture s =
      { edge_detected := 0, error_detected := 0, PulsTime := List.replicate 101 0,
        PulsCntr := 0, CurrTime := 0, PrevTime := 0, PulsPeriod := s.PulsPeriod } := by
  simp only [initPulseCapture, clearLoop_zero s.PulsTime h]

/-! ## The histogram invariant -/

theorem sum_set_getD (l : List Nat) (i v : Nat) (h : i < l.length) :
    (l.set i v).sum + l.getD i 0 = l.sum + v := by
  induction l generalizing i with
  | nil => simp at h
  | cons a l ih =>
    cases i with
    | zero => simp; omega
    | succ i =>
      have := ih i (by simpa using h)
      simp only [List.set_cons_succ, List.sum_cons, List.getD_cons_succ]
      omega

theorem getD_le_sum (l : List Nat) (i : Nat) : l.getD i 0 ≤ l.sum := by
  induction l generalizing i with
  | nil => simp
  | cons a l ih =>
    cases i with
    | zero => simp
    | succ i =>
      have := ih i
      simp only [List.sum_cons, List.getD_cons_succ]
      omega

/-- The invariant of the accumulator: 101 buckets whose total is the sample
count, the count at most 1000, the previous tick a 16-bit value. -/
theorem Reachable.inv {s : State} (h : Reachable s) :
    s.PulsTime.length = 101 ∧ s.PulsTime.sum = s.PulsCntr ∧ s.PulsCntr ≤ 1000 ∧
      s.PrevTime < 65536 := by
  induction h with
  | init s0 h0 =>
    rw [initPulseCapture_eq s0 h0]
    refine ⟨by simp, by simp, by simp, by simp⟩
  | isr t s _ ih =>
    obtain ⟨hlen, hsum, hcnt, _⟩ := ih
    have hprev : (OC1_isr t s).PrevTime < 65536 := by
      rw [OC1_isr_PrevTime]; omega
    by_cases hg : s.PulsCntr < 1000 ∧ s.PrevTime ≠ 0
    · by_cases hb : (OC1_isr t s).PulsPeriod ≥ 950 ∧ (OC1_isr t s).PulsPeriod ≤ 1050
      · obtain ⟨hpt, hc⟩ := OC1_isr_accept t s hg hb
        have hidx : (OC1_isr t s).PulsPeriod - 950 < s.PulsTime.length := by omega
        have hbucket := getD_le_sum s.PulsTime ((OC1_isr t s).PulsPeriod - 950)
        have hmod : (s.PulsTime.getD ((OC1_isr t s).PulsPeriod - 950) 0 + 1) % 65536 =
            s.PulsTime.getD ((OC1_isr t s).PulsPeriod - 950) 0 + 1 := by omega
        have hs := sum_set_getD s.PulsTime ((OC1_isr t s).PulsPeriod - 950)
          (s.PulsTime.getD ((OC1_isr t s).PulsPeriod - 950) 0 + 1) hidx
        rw [hmod] at hpt
        refine ⟨?_, ?_, ?_, hprev⟩
        · rw [hpt, List.length_set]; exact hlen
        · rw [hpt, hc]; omega
        · rw [hc]; omega
      · obtain ⟨hpt, hc⟩ := OC1_isr_discard t s (Or.inr hb)
        exact ⟨by rw [hpt]; exact hlen, by rw [hpt, hc]; exact hsum, by rw [hc]; exact hcnt, hprev⟩
    · obtain ⟨hpt, hc⟩ := OC1_isr_discard t s (Or.inl hg)
      exact ⟨by rw [hpt]; exact hlen, by rw [hpt, hc]; exact hsum, by rw [hc]; exact hcnt, hprev⟩

theorem runISR_nil (s : State) : runISR [] s = s := rfl

theorem runISR_cons (t : Nat) (ts : List Nat) (s : State) :
    runISR (t :: ts) s = runISR ts (OC1_isr t s) := rfl

theorem runISR_append (ts us : List Nat) (s : State) :
    runISR (ts ++ us) s = runISR us (runISR ts s) := by
  simp only [runISR, List.foldl_append]

theorem Reachable.runISR {s : State} (h : Reachable s) (ticks : List Nat) :
    Reachable (PWM.runISR ticks s) := by
  induction ticks generalizing s with
  | nil => exact h
  | cons t ts ih => exact ih (Reachable.isr t s h)

/-- The all-zero state is a state `initPulseCapture` leaves. -/
theorem Reachable.zero :
    Reachable ⟨0, 0, List.replicate 101 0, 0, 0, 0, 0⟩ := by
  have h := Reachable.init ⟨0, 0, List.replicate 101 0, 0, 0, 0, 0⟩ (by decide)
  rwa [initPulseCapture_eq _ (by decide)] at h

/-! ## The claims on the interrupt service routine -/

/-- C1: in a state reached from `initPulseCapture` by interrupts, an invocation
of `OC1_isr` with `PulsCntr < 1000` and `PrevTime ≠ 0` whose computed period `P`
lies in `[950, 1050]` increases bucket `PulsTime[P - 950]` by exactly 1, leaves
every other bucket unchanged, and increases `PulsCntr` by exactly 1. -/
theorem C1_accepted_period_counts_once (s : State) (t : Nat) (hr : Reachable s)
    (hc : s.PulsCntr < 1000) (hp : s.PrevTime ≠ 0)
    (hband : 950 ≤ (OC1_isr t s).PulsPeriod ∧ (OC1_isr t s).PulsPeriod ≤ 1050) :
    (OC1_isr t s).PulsTime.getD ((OC1_isr t s).PulsPeriod - 950) 0 =
        s.PulsTime.getD ((OC1_isr t s).PulsPeriod - 950) 0 + 1 ∧
      (∀ i : Nat, i ≠ (OC1_isr t s).PulsPeriod - 950 →
        (OC1_isr t s).PulsTime.getD i 0 = s.PulsTime.getD i 0) ∧
      (OC1_isr t s).PulsCntr = s.PulsCntr + 1 := by
  obtain ⟨hlen, hsum, _, _⟩ := hr.inv
  obtain ⟨hpt, hcnt⟩ := OC1_isr_accept t s ⟨hc, hp⟩ hband
  have hbucket := getD_le_sum s.PulsTime ((OC1_isr t s).PulsPeriod - 950)
  have hmod : (s.PulsTime.getD ((OC1_isr t s).PulsPeriod - 950) 0 + 1) % 65536 =
      s.PulsTime.getD ((OC1_isr t s).PulsPeriod - 950) 0 + 1 := by omega
  have hidx : (OC1_isr t s).PulsPeriod - 950 < s.PulsTime.length := by omega
  rw [hmod] at hpt
  refine ⟨?_, ?_, hcnt⟩
  · conv_lhs => rw [hpt]
    simp only [List.getD_eq_getElem?_getD, List.getElem?_set_self hidx, Option.getD_some]
  · intro i hi
    conv_lhs => rw [hpt]
    simp only [List.getD_eq_getElem?_getD, List.getElem?_set_ne (Ne.symm hi)]

/-- C2: when `OC1_isr` computes a period (`PulsCntr < 1000`, `PrevTime ≠ 0`) and
the previous tick is at most the captured 16-bit tick, `PulsPeriod` is the
captured tick minus the previous tick. -/
theorem C2_period_without_wraparound (s : State) (t : Nat) (hc : s.PulsCntr < 1000)
    (hp : s.PrevTime ≠ 0) (hle : s.PrevTime ≤ t) (ht : t < 65536) :
    (OC1_isr t s).CurrTime = t ∧ (OC1_isr t s).PulsPeriod = t - s.PrevTime := by
  have hmod : t % 65536 = t := Nat.mod_eq_of_lt ht
  refine ⟨by rw [OC1_isr_CurrTime, hmod], ?_⟩
  rw [OC1_isr_PulsPeriod t s ⟨hc, hp⟩, hmod, if_pos hle]
  simp only [toU32, toU16]
  omega

/-- C3: when `OC1_isr` computes a period and the previous 16-bit tick is above
the captured tick, `PulsPeriod` is `(65535 + CurrTime) - PrevTime`, computed
without truncation to 16 bits. -/
theorem C3_period_with_wraparound (s : State) (t : Nat) (hc : s.PulsCntr < 1000)
    (hp : s.PrevTime ≠ 0) (hgt : t < s.PrevTime) (h16 : s.PrevTime < 65536) :
    (OC1_isr t s).CurrTime = t ∧
      ((OC1_isr t s).PulsPeriod : Int) = (65535 + (t : Int)) - (s.PrevTime : Int) := by
  have hmod : t % 65536 = t := Nat.mod_eq_of_lt (by omega)
  refine ⟨by rw [OC1_isr_CurrTime, hmod], ?_⟩
  rw [OC1_isr_PulsPeriod t s ⟨hc, hp⟩, hmod, if_neg (by omega)]
  simp only [toU32]
  omega

/-- C4: an invocation of `OC1_isr` whose period is below 950 or above 1050
leaves every bucket of `PulsTime` and the count `PulsCntr` as they were. -/
theorem C4_period_outside_band_discarded (s : State) (t : Nat)
    (hout : (OC1_isr t s).PulsPeriod < PERIODLOLIM ∨ PERIODHILIM < (OC1_isr t s).PulsPeriod) :
    (OC1_isr t s).PulsTime = s.PulsTime ∧ (OC1_isr t s).PulsCntr = s.PulsCntr := by
  apply OC1_isr_discard
  right
  simp only [PERIODLOLIM, PERIODHILIM] at hout
  omega

/-- C5: the first invocation of `OC1_isr` after `initPulseCapture`, for any
captured tick, changes no bucket and leaves `PulsCntr` at 0; it records the tick
(in `CurrTime` and `PrevTime`) and sets `edge_detected`, and nothing else. -/
theorem C5_first_edge_after_init (s0 : State) (t : Nat) :
    (OC1_isr t (initPulseCapture s0)).PulsTime = (initPulseCapture s0).PulsTime ∧
      (OC1_isr t (initPulseCapture s0)).PulsCntr = 0 ∧
      OC1_isr t (initPulseCapture s0) =
        { initPulseCapture s0 with
          CurrTime := t % 65536, PrevTime := t % 65536, edge_detected := 1 } := by
  have hprev : (initPulseCapture s0).PrevTime = 0 := rfl
  have hskip := OC1_isr_skip t (initPulseCapture s0) (by rw [hprev]; simp)
  rw [hskip]
  exact ⟨rfl, rfl, rfl⟩

/-- Once the count is 1000 a run of interrupts changes neither count nor histogram. -/
theorem runISR_full (ticks : List Nat) (s : State) (h : s.PulsCntr = 1000) :
    (runISR ticks s).PulsCntr = 1000 ∧ (runISR ticks s).PulsTime = s.PulsTime := by
  induction ticks generalizing s with
  | nil => exact ⟨h, rfl⟩
  | cons t ts ih =>
    obtain ⟨hpt, hc⟩ := OC1_isr_discard t s (Or.inl (by omega))
    obtain ⟨h1, h2⟩ := ih (OC1_isr t s) (by rw [hc]; exact h)
    rw [runISR_cons]
    exact ⟨h1, by rw [h2, hpt]⟩

/-- C6: in every state reached from `initPulseCapture` by interrupts,
`PulsCntr ≤ 1000`; and once `PulsCntr = 1000`, any further interrupts, whatever
ticks they capture, leave `PulsCntr` at 1000 and the histogram unchanged. -/
theorem C6_sample_count_capped (s : State) (hr : Reachable s) :
    s.PulsCntr ≤ 1000 ∧
      ∀ ticks : List Nat, s.PulsCntr = 1000 →
        (runISR ticks s).PulsCntr = 1000 ∧ (runISR ticks s).PulsTime = s.PulsTime :=
  ⟨hr.inv.2.2.1, fun ticks h => runISR_full ticks s h⟩

/-! ## The report loop -/

theorem nonzero_pairs_congr (pt pt' : List Nat) (L : List Nat)
    (h : ∀ j ∈ L, pt'.getD j 0 = pt.getD j 0) :
    (L.filter (fun j => pt'.getD j 0 ≠ 0)).map (fun j => (950 + j, pt'.getD j 0)) =
      (L.filter (fun j => pt.getD j 0 ≠ 0)).map (fun j => (950 + j, pt.getD j 0)) := by
  induction L with
  | nil => rfl
  | cons a L ih =>
    have ha : pt'.getD a 0 = pt.getD a 0 := h a (List.mem_cons_self a L)
    have ih' := ih (fun j hj => h j (List.mem_cons_of_mem a hj))
    simp only [List.filter_cons, ha]
    split
    · simp only [List.map_cons, ha, ih']
    · exact ih'

theorem getD_set_of_ne (pt : List Nat) (i j v : Nat) (h : i ≠ j) :
    (pt.set i v).getD j 0 = pt.getD j 0 := by
  simp only [List.getD_eq_getElem?_getD, List.getElem?_set_ne h]

/-- The report loop entered at `i`: it appends the pairs of the nonzero buckets
from `i` to 100 in ascending order, zeroes those buckets, and touches nothing else. -/
theorem reportLoop_spec (i : Nat) (s : State) (out : List (Nat × Nat)) :
    (reportLoop i s out).2 =
        out ++ ((List.range' i (101 - i)).filter (fun j => s.PulsTime.getD j 0 ≠ 0)).map
          (fun j => (950 + j, s.PulsTime.getD j 0)) ∧
      ∀ j : Nat, (reportLoop i s out).1.PulsTime[j]? =
        if i ≤ j ∧ j ≤ 100 ∧ j < s.PulsTime.length then some 0 else s.PulsTime[j]? := by
  induction i, s, out using reportLoop.induct with
  | case1 i s out h hnz ih =>
    rw [reportLoop, if_pos h, if_pos hnz]
    simp only [PERIODHILIM, PERIODLOLIM] at h ih ⊢
    have hi : (i + 1) % 256 = i + 1 := by omega
    have hp : (950 + i) % 65536 = 950 + i := by omega
    have hr : 101 - i = (101 - (i + 1)) + 1 := by omega
    rw [hi] at ih ⊢
    rw [hp] at ih ⊢
    obtain ⟨ih1, ih2⟩ := ih
    constructor
    · rw [ih1, hr, List.range'_succ, List.filter_cons, if_pos (by simpa using hnz),
        List.map_cons, List.append_assoc, List.singleton_append]
      rw [nonzero_pairs_congr s.PulsTime (s.PulsTime.set i 0)]
      intro j hj
      have : i + 1 ≤ j := (List.mem_range'_1.mp hj).1
      exact getD_set_of_ne _ _ _ _ (by omega)
    · intro j
      rw [ih2 j, List.length_set, List.getElem?_set]
      by_cases hij : i = j
      · subst hij
        by_cases hl : i < s.PulsTime.length
        · simp [hl, h]
        · have : s.PulsTime[i]? = none := List.getElem?_eq_none (by omega)
          simp [hl, this]
      · by_cases hlt : i + 1 ≤ j
        · have : i ≤ j := by omega
          simp [hij, hlt, this]
        · have : ¬ i ≤ j := by omega
          simp [hij, hlt, this]
  | case2 i s out h hz ih =>
    rw [reportLoop, if_pos h, if_neg hz]
    simp only [PERIODHILIM, PERIODLOLIM] at h ih ⊢
    have hi : (i + 1) % 256 = i + 1 := by omega
    have hr : 101 - i = (101 - (i + 1)) + 1 := by omega
    rw [hi] at ih ⊢
    obtain ⟨ih1, ih2⟩ := ih
    have hzero : s.PulsTime.getD i 0 = 0 := by
      by_contra hne
      exact hz hne
    constructor
    · rw [ih1, hr, List.range'_succ, List.filter_cons, if_neg (by simpa using hzero)]
    · intro j
      rw [ih2 j]
      by_cases hij : i = j
      · subst hij
        by_cases hl : i < s.PulsTime.length
        · have h0 : s.PulsTime[i]? = some 0 := by
            have := hzero
            simp only [List.getD_eq_getElem?_getD, List.getElem?_eq_getElem hl,
              Option.getD_some] at this
            rw [List.getElem?_eq_getElem hl, this]
          simp [hl, h, h0]
        · simp [hl]
      · by_cases hlt : i + 1 ≤ j
        · have : i ≤ j := by omega
          simp [hlt, this]
        · have : ¬ i ≤ j := by omega
          simp [hlt, this]
  | case3 i s out h =>
    rw [reportLoop, if_neg h]
    simp only [PERIODHILIM, PERIODLOLIM] at h
    have hr : 101 - i = 0 := by omega
    constructor
    · rw [hr]; simp
    · intro j
      have : ¬ (i ≤ j ∧ j ≤ 100 ∧ j < s.PulsTime.length) := by omega
      rw [if_neg this]

/-- C7: on any histogram of 101 buckets the report loop of `main` emits exactly
the pairs `(950 + i, PulsTime[i])` of the indices `i` in `0..100` with
`PulsTime[i] ≠ 0`, in ascending order of `i`, and leaves all 101 buckets 0. -/
theorem C7_report_drains_histogram (s : State) (hlen : s.PulsTime.length = 101) :
    (reportLoop 0 s []).2 =
        ((List.range 101).filter (fun i => s.PulsTime.getD i 0 ≠ 0)).map
          (fun i => (950 + i, s.PulsTime.getD i 0)) ∧
      (reportLoop 0 s []).1.PulsTime = List.replicate 101 0 := by
  obtain ⟨h1, h2⟩ := reportLoop_spec 0 s []
  constructor
  · rw [h1, List.range_eq_range']; rfl
  · apply List.ext_getElem?
    intro j
    rw [h2 j, List.getElem?_replicate, hlen]
    by_cases hj : j < 101
    · have : 0 ≤ j ∧ j ≤ 100 ∧ j < 101 := by omega
      rw [if_pos this, if_pos hj]
    · have : ¬ (0 ≤ j ∧ j ≤ 100 ∧ j < 101) := by omega
      rw [if_neg this, if_neg hj]
      exact List.getElem?_eq_none (by omega)

/-! ## The self-test -/

/-- Away from `current_time = start_time` the loop condition of line 243 is the
comparison of the elapsed ticks modulo 65536 with 5000. -/
theorem waitCondition_of_ne (s c : Nat) (hs : s < 65536) (hc : c < 65536) (hne : c ≠ s) :
    waitCondition s c = true ↔ ((c : Int) - s) % 65536 < 5000 := by
  simp only [waitCondition, toU16, decide_eq_true_eq]
  split_ifs with h <;> omega

/-- C8: at the first check of the self-test wait, where `current_time` equals
`start_time`, the loop condition of line 243 is false: the second arm is taken and
evaluates to 65536, not to the elapsed time 0. The wait ends at once, with no
read of the timer, whatever the start tick. -/
theorem C8_wait_ends_at_first_check (start_time : Nat) (polls : List Nat) :
    waitCondition start_time start_time = false ∧
      selfTestWait start_time start_time polls = some (start_time, polls) := by
  have h : waitCondition start_time start_time = false := by
    simp only [waitCondition, decide_eq_false_iff_not]
    split_ifs <;> omega
  refine ⟨h, ?_⟩
  cases polls with
  | nil => simp only [selfTestWait, h]; rfl
  | cons t ts => simp only [selfTestWait, h]; rfl

theorem runISR_edge_detected (ticks : List Nat) (s : State) (h : s.edge_detected = 1) :
    (runISR ticks s).edge_detected = 1 := by
  induction ticks generalizing s with
  | nil => exact h
  | cons t ts ih => exact ih (OC1_isr t s) (OC1_isr_edge_detected t s)

/-- C9: after `initPulseCapture` and the interrupts that ran during the self-test
wait, `main` takes the failure branch (failure message, retry prompt, one
character read, `post_error = 1`) when no interrupt ran, and the success branch
(`post_error = 0`, on to the measurement) when at least one ran. -/
theorem C9_self_test_verdict (s0 : State) (ticks : List Nat) (GetChar : Nat) :
    postDiagnosis (runISR ticks (initPulseCapture s0)) GetChar =
      if ticks = [] then
        PostOutcome.failure [Message.postFailed, Message.testAgain] 1 (GetChar % 256)
      else
        PostOutcome.success [Message.postSuccessful, Message.pressAnyKey] 0 := by
  cases ticks with
  | nil =>
    have h0 : (runISR [] (initPulseCapture s0)).edge_detected = 0 := rfl
    simp only [postDiagnosis, h0]
    rfl
  | cons t ts =>
    have h1 : (runISR (t :: ts) (initPulseCapture s0)).edge_detected = 1 :=
      runISR_edge_detected ts _ (OC1_isr_edge_detected t _)
    simp only [postDiagnosis, h1]
    rfl

/-! ## End to end: edges 1000 ticks apart -/

/-- C10: for the edges captured at ticks 1, 1001, 2001, ... (1000 ticks apart on
the 16-bit timer) the count reaches 1000 at the 1001st edge with two nonzero
buckets: the 15 periods measured across a wraparound of the timer are counted
as 999, so the report has the two lines `999 : 15` and `1000 : 985`. -/
theorem C10_wraparound_splits_histogram :
    measureWait (edgeStream 1 1001) (initPulseCapture ⟨0, 0, List.replicate 101 0, 0, 0, 0, 0⟩) =
        some ⟨1, 0, ((List.replicate 101 0).set 49 15).set 50 985, 1000, 16961, 16961, 1000⟩ ∧
      (report ⟨1, 0, ((List.replicate 101 0).set 49 15).set 50 985, 1000, 16961, 16961, 1000⟩).2 =
        [(999, 15), (1000, 985)] := by
  constructor
  · rw [initPulseCapture_eq _ (by decide)]
    decide!
  · rw [report, if_pos (by decide), (reportLoop_spec 0 _ []).1]
    decide

/-! ## Instances of the claims at concrete states -/

/-- After a first edge at tick 5, the edge at tick 1005 is counted in bucket 50. -/
theorem C1_accepted_period_counts_once_witness :
    (OC1_isr 5 ⟨0, 0, List.replicate 101 0, 0, 0, 0, 0⟩).PulsCntr < 1000 ∧
      (OC1_isr 5 ⟨0, 0, List.replicate 101 0, 0, 0, 0, 0⟩).PrevTime ≠ 0 ∧
      (OC1_isr 1005 (OC1_isr 5 ⟨0, 0, List.replicate 101 0, 0, 0, 0, 0⟩)).PulsPeriod = 1000 ∧
      (OC1_isr 1005 (OC1_isr 5 ⟨0, 0, List.replicate 101 0, 0, 0, 0, 0⟩)).PulsTime.getD 50 0 =
        (OC1_isr 5 ⟨0, 0, List.replicate 101 0, 0, 0, 0, 0⟩).PulsTime.getD 50 0 + 1 ∧
      (OC1_isr 1005 (OC1_isr 5 ⟨0, 0, List.replicate 101 0, 0, 0, 0, 0⟩)).PulsCntr =
        (OC1_isr 5 ⟨0, 0, List.replicate 101 0, 0, 0, 0, 0⟩).PulsCntr + 1 :=
  have h := C1_accepted_period_counts_once (OC1_isr 5 ⟨0, 0, List.replicate 101 0, 0, 0, 0, 0⟩)
    1005 (Reachable.isr 5 _ Reachable.zero) (by decide) (by decide) (by decide)
  ⟨by decide, by decide, by decide, h.1, h.2.2⟩

/-- Previous tick 100, captured tick 1100: the period is 1000. -/
theorem C2_period_without_wraparound_witness :
    (OC1_isr 1100 ⟨0, 0, List.replicate 101 0, 0, 0, 100, 0⟩).CurrTime = 1100 ∧
      (OC1_isr 1100 ⟨0, 0, List.replicate 101 0, 0, 0, 100, 0⟩).PulsPeriod = 1100 - 100 :=
  C2_period_without_wraparound ⟨0, 0, List.replicate 101 0, 0, 0, 100, 0⟩ 1100
    (by decide) (by decide) (by decide) (by decide)

/-- Previous tick 65000, captured tick 100: the period is `(65535 + 100) - 65000 = 635`. -/
theorem C3_period_with_wraparound_witness :
    (OC1_isr 100 ⟨0, 0, List.replicate 101 0, 0, 0, 65000, 0⟩).PulsPeriod = 635 := by
  have h := (C3_period_with_wraparound ⟨0, 0, List.replicate 101 0, 0, 0, 65000, 0⟩ 100
    (by decide) (by decide) (by decide) (by decide)).2
  have e : (65535 + ((100 : Nat) : Int)) - ((65000 : Nat) : Int) = ((635 : Nat) : Int) := by decide
  exact Int.ofNat.inj (h.trans e)

/-- Previous tick 100, captured tick 5000: the period 4900 is discarded. -/
theorem C4_period_outside_band_discarded_witness :
    PERIODHILIM < (OC1_isr 5000 ⟨1, 0, List.replicate 101 0, 7, 100, 100, 0⟩).PulsPeriod ∧
      (OC1_isr 5000 ⟨1, 0, List.replicate 101 0, 7, 100, 100, 0⟩).PulsTime = List.replicate 101 0 ∧
      (OC1_isr 5000 ⟨1, 0, List.replicate 101 0, 7, 100, 100, 0⟩).PulsCntr = 7 :=
  ⟨by decide,
    C4_period_outside_band_discarded ⟨1, 0, List.replicate 101 0, 7, 100, 100, 0⟩ 5000
      (Or.inr (by decide))⟩

/-- The state after 1001 edges 1000 ticks apart has `PulsCntr = 1000`; two more
edges change neither the count nor the histogram. -/
theorem C6_sample_count_capped_witness :
    (runISR (edgeStream 1 1001) ⟨0, 0, List.replicate 101 0, 0, 0, 0, 0⟩).PulsCntr = 1000 ∧
      (runISR [17961, 18961]
          (runISR (edgeStream 1 1001) ⟨0, 0, List.replicate 101 0, 0, 0, 0, 0⟩)).PulsCntr = 1000 ∧
      (runISR [17961, 18961]
          (runISR (edgeStream 1 1001) ⟨0, 0, List.replicate 101 0, 0, 0, 0, 0⟩)).PulsTime =
        (runISR (edgeStream 1 1001) ⟨0, 0, List.replicate 101 0, 0, 0, 0, 0⟩).PulsTime :=
  have hc : (runISR (edgeStream 1 1001) ⟨0, 0, List.replicate 101 0, 0, 0, 0, 0⟩).PulsCntr = 1000 := by
    decide!
  ⟨hc, (C6_sample_count_capped _ (Reachable.zero.runISR (edgeStream 1 1001))).2 [17961, 18961] hc⟩

/-- Buckets `950 : 3`, `1000 : 1`, `1050 : 2`, all others 0: the report emits
`(950, 3)`, `(1000, 1)`, `(1050, 2)` in that order and leaves every bucket 0. -/
theorem C7_report_drains_histogram_witness :
    (reportLoop 0
        ⟨1, 0, (((List.replicate 101 0).set 0 3).set 50 1).set 100 2, 6, 0, 0, 0⟩ []).2 =
        [(950, 3), (1000, 1), (1050, 2)] ∧
      (reportLoop 0
        ⟨1, 0, (((List.replicate 101 0).set 0 3).set 50 1).set 100 2, 6, 0, 0, 0⟩ []).1.PulsTime =
        List.replicate 101 0 :=
  have h := C7_report_drains_histogram
    ⟨1, 0, (((List.replicate 101 0).set 0 3).set 50 1).set 100 2, 6, 0, 0, 0⟩ (by decide)
  ⟨h.1.trans (by decide), h.2⟩

/-! ## Frame and safety properties of the interrupt service routine -/

/-- C13: for every state and every captured 16-bit tick `t`, after `OC1_isr`
returns `PrevTime = t` and `edge_detected = 1`; the three paths of the routine
(period computation skipped, period accepted, period outside the band) are told
apart by nothing in this statement. -/
theorem C13_previous_tick_always_updated (s : State) (t : Nat) (ht : t < 65536) :
    (OC1_isr t s).PrevTime = t ∧ (OC1_isr t s).edge_detected = 1 := by
  refine ⟨?_, OC1_isr_edge_detected t s⟩
  rw [OC1_isr_PrevTime]
  omega

/-- C14: for every prior state holding the 101-element array, `initPulseCapture`
returns (the model is a total function, its clearing loop included) with all 101
buckets 0 and `PulsCntr`, `PrevTime`, `CurrTime`, `edge_detected` and
`error_detected` all 0. -/
theorem C14_initPulseCapture_clears_everything (s : State) (hlen : s.PulsTime.length = 101) :
    (initPulseCapture s).PulsTime = List.replicate 101 0 ∧
      (∀ i, i ≤ 100 → (initPulseCapture s).PulsTime[i]? = some 0) ∧
      (initPulseCapture s).PulsCntr = 0 ∧ (initPulseCapture s).PrevTime = 0 ∧
      (initPulseCapture s).CurrTime = 0 ∧ (initPulseCapture s).edge_detected = 0 ∧
      (initPulseCapture s).error_detected = 0 := by
  rw [initPulseCapture_eq s hlen]
  refine ⟨rfl, ?_, rfl, rfl, rfl, rfl, rfl⟩
  intro i hi
  show (List.replicate 101 0)[i]? = some 0
  rw [List.getElem?_replicate, if_pos (by omega)]

/-- C15: when the guard of line 127 holds and the captured tick `t` is below the
16-bit `PrevTime` (the wraparound branch, line 137), the period the routine
assigns is one less than the elapsed distance `(t - PrevTime) mod 65536`. -/
theorem C15_wraparound_period_one_short (s : State) (t : Nat) (hc : s.PulsCntr < 1000)
    (h16 : s.PrevTime < 65536) (hgt : t < s.PrevTime) :
    ((OC1_isr t s).PulsPeriod : Int) = ((t : Int) - s.PrevTime) % 65536 - 1 := by
  have ht : t % 65536 = t := by omega
  rw [OC1_isr_PulsPeriod t s ⟨hc, by omega⟩, ht, if_neg (by omega)]
  simp only [toU32]
  omega

/-- C16: whenever the routine executes the histogram write of line 144 (guard of
line 127 and band test of line 141 both true) the index `PulsPeriod - 950`, as
computed in 32-bit unsigned arithmetic, is the difference itself without
borrow and is at most 100, and the write is the only change of the array;
on every other path the array is not written. This holds
for every state and tick, in both branches of the period computation. -/
theorem C16_histogram_index_in_range (s : State) (t : Nat) :
    if s.PulsCntr < 1000 ∧ s.PrevTime ≠ 0 ∧
        PERIODLOLIM ≤ (OC1_isr t s).PulsPeriod ∧ (OC1_isr t s).PulsPeriod ≤ PERIODHILIM then
      (toU32 (((OC1_isr t s).PulsPeriod : Int) - PERIODLOLIM) : Int) =
          ((OC1_isr t s).PulsPeriod : Int) - PERIODLOLIM ∧
        toU32 (((OC1_isr t s).PulsPeriod : Int) - PERIODLOLIM) ≤ 100 ∧
        (OC1_isr t s).PulsTime =
          s.PulsTime.set (toU32 (((OC1_isr t s).PulsPeriod : Int) - PERIODLOLIM))
            ((s.PulsTime.getD (toU32 (((OC1_isr t s).PulsPeriod : Int) - PERIODLOLIM)) 0 + 1)
              % 65536)
    else (OC1_isr t s).PulsTime = s.PulsTime := by
  split_ifs with h
  · obtain ⟨h1, h2, h3, h4⟩ := h
    simp only [PERIODLOLIM, PERIODHILIM] at h3 h4 ⊢
    have hidx : toU32 (((OC1_isr t s).PulsPeriod : Int) - (950 : Nat)) =
        (OC1_isr t s).PulsPeriod - 950 := by
      simp only [toU32]; omega
    rw [hidx]
    exact ⟨by omega, by omega, (OC1_isr_accept t s ⟨h1, h2⟩ ⟨h3, h4⟩).1⟩
  · simp only [PERIODLOLIM, PERIODHILIM] at h
    apply (OC1_isr_discard t s _).1
    by_cases hg : s.PulsCntr < 1000 ∧ s.PrevTime ≠ 0
    · right
      intro hb
      exact h ⟨hg.1, hg.2, hb.1, hb.2⟩
    · left; exact hg

/-- C17: in every state reached from `initPulseCapture` by interrupts the 101
buckets add up to `PulsCntr`; hence every bucket is at most 1000 and the 16-bit
increment of a bucket (line 144) does not wrap around. -/
theorem C17_histogram_sum_is_count (s : State) (hr : Reachable s) :
    s.PulsTime.length = 101 ∧ s.PulsTime.sum = s.PulsCntr ∧
      (∀ i, s.PulsTime.getD i 0 ≤ 1000) ∧
      (∀ i, (s.PulsTime.getD i 0 + 1) % 65536 = s.PulsTime.getD i 0 + 1) := by
  obtain ⟨hlen, hsum, hcnt, _⟩ := hr.inv
  have hb : ∀ i, s.PulsTime.getD i 0 ≤ 1000 := fun i =>
    le_trans (getD_le_sum s.PulsTime i) (by rw [hsum]; exact hcnt)
  refine ⟨hlen, hsum, hb, fun i => ?_⟩
  have := hb i
  omega

/-- C18: after an invocation that captures tick 0, `PrevTime` is 0, the value
that stands for "no previous edge"; the next invocation, capturing a tick `t`
in `[950, 1050]`, changes neither the histogram nor `PulsCntr`, although the
elapsed period `t - PrevTime` lies in the accepted band. This holds whatever
the count, in particular with `PulsCntr < 1000`. -/
theorem C18_tick_zero_taken_for_no_edge (s : State) (t : Nat) (ht : 950 ≤ t ∧ t ≤ 1050) :
    (OC1_isr 0 s).PrevTime = 0 ∧
      (PERIODLOLIM ≤ t - (OC1_isr 0 s).PrevTime ∧ t - (OC1_isr 0 s).PrevTime ≤ PERIODHILIM) ∧
      (OC1_isr t (OC1_isr 0 s)).PulsTime = (OC1_isr 0 s).PulsTime ∧
      (OC1_isr t (OC1_isr 0 s)).PulsCntr = (OC1_isr 0 s).PulsCntr := by
  have h0 : (OC1_isr 0 s).PrevTime = 0 := OC1_isr_PrevTime 0 s
  refine ⟨h0, ?_, OC1_isr_discard t (OC1_isr 0 s) (Or.inl (fun h => h.2 h0))⟩
  rw [h0]
  simp only [PERIODLOLIM, PERIODHILIM]
  omega

theorem runISR_error_detected (ticks : List Nat) (s : State) :
    (runISR ticks s).error_detected = s.error_detected := by
  induction ticks generalizing s with
  | nil => rfl
  | cons t ts ih => rw [runISR_cons, ih, OC1_isr_error_detected]

/-- C19: `OC1_isr` leaves `error_detected` as it found it, for every state and
captured tick; so after `initPulseCapture` and any sequence of interrupts
`error_detected` is 0. -/
theorem C19_error_detected_never_written (s s0 : State) (t : Nat) (ticks : List Nat) :
    (OC1_isr t s).error_detected = s.error_detected ∧
      (runISR ticks (initPulseCapture s0)).error_detected = 0 := by
  refine ⟨OC1_isr_error_detected t s, ?_⟩
  rw [runISR_error_detected]
  rfl

/-- Previous tick 100, captured tick 1100: afterwards `PrevTime = 1100`. -/
theorem C13_previous_tick_always_updated_witness :
    (OC1_isr 1100 ⟨0, 0, List.replicate 101 0, 0, 0, 100, 0⟩).PrevTime = 1100 ∧
      (OC1_isr 1100 ⟨0, 0, List.replicate 101 0, 0, 0, 100, 0⟩).edge_detected = 1 :=
  C13_previous_tick_always_updated ⟨0, 0, List.replicate 101 0, 0, 0, 100, 0⟩ 1100 (by decide)

/-- From a state with every variable nonzero and every bucket 7. -/
theorem C14_initPulseCapture_clears_everything_witness :
    (initPulseCapture ⟨1, 1, List.replicate 101 7, 5, 9, 9, 3⟩).PulsTime = List.replicate 101 0 ∧
      (initPulseCapture ⟨1, 1, List.replicate 101 7, 5, 9, 9, 3⟩).PulsCntr = 0 ∧
      (initPulseCapture ⟨1, 1, List.replicate 101 7, 5, 9, 9, 3⟩).PrevTime = 0 :=
  have h := C14_initPulseCapture_clears_everything ⟨1, 1, List.replicate 101 7, 5, 9, 9, 3⟩
    (by decide)
  ⟨h.1, h.2.2.1, h.2.2.2.1⟩

/-- Previous tick 65000, captured tick 100: the distance is 636, the period 635. -/
theorem C15_wraparound_period_one_short_witness :
    (((100 : Nat) : Int) - ((65000 : Nat) : Int)) % 65536 = 636 ∧
      (((OC1_isr 100 ⟨0, 0, List.replicate 101 0, 0, 0, 65000, 0⟩).PulsPeriod : Nat) : Int) =
        (((100 : Nat) : Int) - ((65000 : Nat) : Int)) % 65536 - 1 :=
  ⟨by decide,
    C15_wraparound_period_one_short ⟨0, 0, List.replicate 101 0, 0, 0, 65000, 0⟩ 100
      (by decide) (by decide) (by decide)⟩

/-- After the edges at ticks 5 and 1005 the count is 1 and the buckets add up to 1. -/
theorem C17_histogram_sum_is_count_witness :
    (OC1_isr 1005 (OC1_isr 5 ⟨0, 0, List.replicate 101 0, 0, 0, 0, 0⟩)).PulsCntr = 1 ∧
      (OC1_isr 1005 (OC1_isr 5 ⟨0, 0, List.replicate 101 0, 0, 0, 0, 0⟩)).PulsTime.sum =
        (OC1_isr 1005 (OC1_isr 5 ⟨0, 0, List.replicate 101 0, 0, 0, 0, 0⟩)).PulsCntr :=
  ⟨by decide,
    (C17_histogram_sum_is_count _
      (Reachable.isr 1005 _ (Reachable.isr 5 _ Reachable.zero))).2.1⟩

/-- Edges at ticks 0 and 1000 after a reset: the period of 1000 ticks is not counted. -/
theorem C18_tick_zero_taken_for_no_edge_witness :
    (OC1_isr 0 ⟨0, 0, List.replicate 101 0, 0, 0, 0, 0⟩).PulsCntr < 1000 ∧
      (OC1_isr 1000 (OC1_isr 0 ⟨0, 0, List.replicate 101 0, 0, 0, 0, 0⟩)).PulsTime =
        (OC1_isr 0 ⟨0, 0, List.replicate 101 0, 0, 0, 0, 0⟩).PulsTime ∧
      (OC1_isr 1000 (OC1_isr 0 ⟨0, 0, List.replicate 101 0, 0, 0, 0, 0⟩)).PulsCntr =
        (OC1_isr 0 ⟨0, 0, List.replicate 101 0, 0, 0, 0, 0⟩).PulsCntr :=
  ⟨by decide,
    (C18_tick_zero_taken_for_no_edge ⟨0, 0, List.replicate 101 0, 0, 0, 0, 0⟩ 1000
      ⟨by decide, by decide⟩).2.2⟩

/-! ## The controller of `main` -/

theorem run_nil (c : Ctrl) : run [] c = c := rfl

theorem run_cons (i : Input) (is : List Input) (c : Ctrl) :
    run (i :: is) c = run is (step i c) := rfl

theorem run_append (is js : List Input) (c : Ctrl) :
    run (is ++ js) c = run js (run is c) := by
  simp only [run, List.foldl_append]

/-- Once `main` has returned nothing moves any more. -/
theorem step_returned (i : Input) (c : Ctrl) (h : c.loc = Loc.returned) : step i c = c := by
  simp only [step, h]

theorem run_returned (is : List Input) (c : Ctrl) (h : c.loc = Loc.returned) :
    run is c = c := by
  induction is with
  | nil => rfl
  | cons i is ih => rw [run_cons, step_returned i c h, ih]

/-- Inside the measurement loop `post_error` is 0: a step keeps it so. -/
theorem step_post_error (i : Input) (c : Ctrl)
    (h : c.loc.inMeasurementLoop = true → c.post_error = 0) :
    (step i c).loc.inMeasurementLoop = true → (step i c).post_error = 0 := by
  rcases c with ⟨loc, pe, ui, st, ct, g, out⟩
  cases loc <;> simp only [step, Loc.inMeasurementLoop, postDiagnosis] at h ⊢ <;>
    (try split_ifs) <;> simp_all [Loc.inMeasurementLoop]

theorem run_post_error (is : List Input) (c : Ctrl)
    (h : c.loc.inMeasurementLoop = true → c.post_error = 0) :
    (run is c).loc.inMeasurementLoop = true → (run is c).post_error = 0 := by
  induction is generalizing c with
  | nil => exact h
  | cons i is ih => exact ih (step i c) (step_post_error i c h)

/-- C12: on self-test failure (the test of line 250 fails) the controller sets
`post_error = 1`, prints the failure text and the retry prompt and reads one
character. For 'Y' (89) or 'y' (121) it goes back to line 237: `initPulseCapture`
is called and a new self-test begins. For every other character it prints the
end-of-run notice and leaves `main`, passing through no program point of the
measurement loop, and stays there. -/
theorem C12_self_test_failure_asks_for_retry (c : Ctrl) (i i1 i2 i3 : Input)
    (hloc : c.loc = Loc.verdict) (hfail : (runISR i.ticks c.globals).edge_detected ≠ 1) :
    (step i c).loc = Loc.outerCond ∧ (step i c).post_error = 1 ∧
      (step i c).user_input = i.GetChar % 256 ∧
      (step i c).out = c.out ++ [Message.postFailed, Message.testAgain] ∧
      if i.GetChar % 256 = 89 ∨ i.GetChar % 256 = 121 then
        (run [i, i1] c).loc = Loc.outerInit ∧
          (run [i, i1, i2] c).loc = Loc.selfTestStart ∧
          (run [i, i1, i2] c).globals =
            initPulseCapture (runISR i2.ticks (run [i, i1] c).globals) ∧
          (run [i, i1, i2, i3] c).loc = Loc.selfTestWaiting
      else
        (run [i, i1] c).loc = Loc.endNotice ∧
          (run [i, i1, i2] c).loc = Loc.returned ∧
          (run [i, i1, i2] c).out =
            c.out ++ [Message.postFailed, Message.testAgain, Message.endOfProgram] ∧
          ∀ more, run more (run [i, i1, i2] c) = run [i, i1, i2] c := by
  rcases c with ⟨loc, pe, ui, st, ct, g, out⟩
  simp only at hloc hfail
  subst hloc
  have h1 : step i ⟨Loc.verdict, pe, ui, st, ct, g, out⟩ =
      ⟨Loc.outerCond, 1, i.GetChar % 256, st, ct, runISR i.ticks g,
        out ++ [Message.postFailed, Message.testAgain]⟩ := by
    simp only [step, postDiagnosis, if_neg hfail]
  refine ⟨by rw [h1], by rw [h1], by rw [h1], by rw [h1], ?_⟩
  simp only [run, List.foldl_cons, List.foldl_nil, h1]
  split_ifs with hy
  · have h2 : step i1 ⟨Loc.outerCond, 1, i.GetChar % 256, st, ct, runISR i.ticks g,
          out ++ [Message.postFailed, Message.testAgain]⟩ =
        ⟨Loc.outerInit, 1, i.GetChar % 256, st, ct, runISR i1.ticks (runISR i.ticks g),
          out ++ [Message.postFailed, Message.testAgain]⟩ := by
      simp only [step]
      rw [if_pos ⟨trivial, hy⟩]
    rw [h2]
    exact ⟨rfl, rfl, rfl, rfl⟩
  · have h2 : step i1 ⟨Loc.outerCond, 1, i.GetChar % 256, st, ct, runISR i.ticks g,
          out ++ [Message.postFailed, Message.testAgain]⟩ =
        ⟨Loc.endNotice, 1, i.GetChar % 256, st, ct, runISR i1.ticks (runISR i.ticks g),
          out ++ [Message.postFailed, Message.testAgain]⟩ := by
      simp only [step]
      rw [if_neg (fun h => hy h.2)]
    rw [h2]
    refine ⟨rfl, rfl, ?_, ?_⟩
    · show (out ++ [Message.postFailed, Message.testAgain]) ++ [Message.endOfProgram] = _
      simp
    · intro more
      exact run_returned more _ rfl

/-- C11 (amended): in every run of `main` from line 237, after a report the
controller reads one character. For 'Y' (89) or 'y' (121) it goes back to line
261, the top of the inner loop: `initPulseCapture` is called and the measurement
wait follows at once, with no self-test in between. For every other character
it prints the end-of-run notice and leaves `main`, and stays there. -/
theorem C11_measure_again_without_self_test (c0 : Ctrl) (inputs : List Input)
    (i i1 i2 i3 : Input) (h0 : c0.loc = Loc.outerInit)
    (hloc : (run inputs c0).loc = Loc.reporting) :
    (step i (run inputs c0)).loc = Loc.innerCond ∧
      (step i (run inputs c0)).user_input = i.GetChar % 256 ∧
      if i.GetChar % 256 = 89 ∨ i.GetChar % 256 = 121 then
        (run [i, i1] (run inputs c0)).loc = Loc.innerInit ∧
          (run [i, i1, i2] (run inputs c0)).loc = Loc.measuring ∧
          (run [i, i1, i2] (run inputs c0)).globals =
            initPulseCapture (runISR i2.ticks (run [i, i1] (run inputs c0)).globals)
      else
        (run [i, i1] (run inputs c0)).loc = Loc.outerCond ∧
          (run [i, i1, i2] (run inputs c0)).loc = Loc.endNotice ∧
          (run [i, i1, i2, i3] (run inputs c0)).loc = Loc.returned ∧
          (run [i, i1, i2, i3] (run inputs c0)).out =
            (step i (run inputs c0)).out ++ [Message.endOfProgram] ∧
          ∀ more, run more (run [i, i1, i2, i3] (run inputs c0)) =
            run [i, i1, i2, i3] (run inputs c0) := by
  have hpe : (run inputs c0).post_error = 0 :=
    run_post_error inputs c0 (by rw [h0]; intro h; cases h) (by rw [hloc]; rfl)
  generalize run inputs c0 = c at hloc hpe ⊢
  rcases c with ⟨loc, pe, ui, st, ct, g, out⟩
  simp only at hloc hpe
  subst hloc hpe
  have h1 : step i ⟨Loc.reporting, 0, ui, st, ct, g, out⟩ =
      ⟨Loc.innerCond, 0, i.GetChar % 256, st, ct, (report (runISR i.ticks g)).1,
        out ++ (report (runISR i.ticks g)).2.map (fun p => Message.pulsePeriod p.1 p.2)
          ++ [Message.measureAgain]⟩ := rfl
  refine ⟨by rw [h1], by rw [h1], ?_⟩
  simp only [run, List.foldl_cons, List.foldl_nil, h1]
  split_ifs with hy
  · have h2 : step i1 ⟨Loc.innerCond, 0, i.GetChar % 256, st, ct, (report (runISR i.ticks g)).1,
          out ++ (report (runISR i.ticks g)).2.map (fun p => Message.pulsePeriod p.1 p.2)
            ++ [Message.measureAgain]⟩ =
        ⟨Loc.innerInit, 0, i.GetChar % 256, st, ct,
          runISR i1.ticks (report (runISR i.ticks g)).1,
          out ++ (report (runISR i.ticks g)).2.map (fun p => Message.pulsePeriod p.1 p.2)
            ++ [Message.measureAgain]⟩ := by
      simp only [step]
      rw [if_pos hy]
    rw [h2]
    exact ⟨rfl, rfl, rfl⟩
  · have h2 : step i1 ⟨Loc.innerCond, 0, i.GetChar % 256, st, ct, (report (runISR i.ticks g)).1,
          out ++ (report (runISR i.ticks g)).2.map (fun p => Message.pulsePeriod p.1 p.2)
            ++ [Message.measureAgain]⟩ =
        ⟨Loc.outerCond, 0, i.GetChar % 256, st, ct,
          runISR i1.ticks (report (runISR i.ticks g)).1,
          out ++ (report (runISR i.ticks g)).2.map (fun p => Message.pulsePeriod p.1 p.2)
            ++ [Message.measureAgain]⟩ := by
      simp only [step]
      rw [if_neg hy]
    rw [h2]
    refine ⟨rfl, rfl, rfl, rfl, ?_⟩
    intro more
    exact run_returned more _ rfl

/-- C11, counterexample: the program points of a run in which the operator
answers 'Y' (89) to the prompt after the report. After `reporting` and the loop
condition of line 293 come `innerInit` and `measuring`; the run does not return
to `outerInit` and no self-test precedes the second measurement. -/
theorem C11_return_to_init_counterexample :
    (List.range 10).map (fun k =>
        (run ((session ++ [Input.mk [] 0 89, Input.mk [] 0 0, Input.mk [] 0 0]).take k) powerOn).loc) =
      [Loc.outerInit, Loc.selfTestStart, Loc.selfTestWaiting, Loc.verdict, Loc.innerInit,
        Loc.measuring, Loc.reporting, Loc.innerCond, Loc.innerInit, Loc.measuring] := by
  decide!

/-- After the report of `session`: 'y' leads to the measurement wait in three
steps, 'n' to the end of `main` in four. -/
theorem C11_measure_again_without_self_test_witness :
    (run session powerOn).loc = Loc.reporting ∧
      (run [⟨[], 0, 121⟩, ⟨[], 0, 0⟩, ⟨[], 0, 0⟩] (run session powerOn)).loc = Loc.measuring ∧
      (run [⟨[], 0, 110⟩, ⟨[], 0, 0⟩, ⟨[], 0, 0⟩, ⟨[], 0, 0⟩] (run session powerOn)).loc =
        Loc.returned := by
  have hr : (run session powerOn).loc = Loc.reporting := by decide!
  have hy := (C11_measure_again_without_self_test powerOn session
    ⟨[], 0, 121⟩ ⟨[], 0, 0⟩ ⟨[], 0, 0⟩ ⟨[], 0, 0⟩ rfl hr).2.2
  have hn := (C11_measure_again_without_self_test powerOn session
    ⟨[], 0, 110⟩ ⟨[], 0, 0⟩ ⟨[], 0, 0⟩ ⟨[], 0, 0⟩ rfl hr).2.2
  rw [if_pos (by decide)] at hy
  rw [if_neg (by decide)] at hn
  exact ⟨hr, hy.2.1, hn.2.2.1⟩

/-- A self-test during which no edge arrives: 'Y' leads to a new self-test, 'n'
to the end of `main` with the three texts printed. -/
theorem C12_self_test_failure_asks_for_retry_witness :
    (runISR [] (run [⟨[], 0, 0⟩, ⟨[], 40, 0⟩, ⟨[], 40, 0⟩] powerOn).globals).edge_detected ≠ 1 ∧
      (run [⟨[], 0, 0⟩, ⟨[], 40, 0⟩, ⟨[], 40, 0⟩] powerOn).loc = Loc.verdict ∧
      (run [⟨[], 0, 89⟩, ⟨[], 0, 0⟩, ⟨[], 0, 0⟩]
        (run [⟨[], 0, 0⟩, ⟨[], 40, 0⟩, ⟨[], 40, 0⟩] powerOn)).loc = Loc.selfTestStart ∧
      (run [⟨[], 0, 110⟩, ⟨[], 0, 0⟩, ⟨[], 0, 0⟩]
        (run [⟨[], 0, 0⟩, ⟨[], 40, 0⟩, ⟨[], 40, 0⟩] powerOn)).out =
        [Message.postFailed, Message.testAgain, Message.endOfProgram] := by
  have hv : (run [⟨[], 0, 0⟩, ⟨[], 40, 0⟩, ⟨[], 40, 0⟩] powerOn).loc = Loc.verdict := by decide
  have hf : (runISR [] (run [⟨[], 0, 0⟩, ⟨[], 40, 0⟩, ⟨[], 40, 0⟩] powerOn).globals).edge_detected ≠ 1 := by
    decide
  have hy := (C12_self_test_failure_asks_for_retry
    (run [⟨[], 0, 0⟩, ⟨[], 40, 0⟩, ⟨[], 40, 0⟩] powerOn)
    ⟨[], 0, 89⟩ ⟨[], 0, 0⟩ ⟨[], 0, 0⟩ ⟨[], 0, 0⟩ hv hf).2.2.2.2
  have hn := (C12_self_test_failure_asks_for_retry
    (run [⟨[], 0, 0⟩, ⟨[], 40, 0⟩, ⟨[], 40, 0⟩] powerOn)
    ⟨[], 0, 110⟩ ⟨[], 0, 0⟩ ⟨[], 0, 0⟩ ⟨[], 0, 0⟩ hv hf).2.2.2.2
  rw [if_pos (by decide)] at hy
  rw [if_neg (by decide)] at hn
  refine ⟨hf, hv, hy.2.1, hn.2.2.1.trans ?_⟩
  decide

end PWM
